import Mathlib

/-!
Verification of the DCS client protocol engine: a shallow embedding of the
streaming JSON frame decoder (`dcs_data_processor.py`), the indentation-tree
data parser (`dcs_data_parser.py`), the command queue / correlator
(`dcs_command_processor.py` together with its wiring in `dcs_client.py`) and
the pending-query bookkeeping of `dcs_object_manager.py`, with theorems
settling the specification's claims about them.

Python floats are modelled as exact rationals (every literal in the claims is
compared literal-to-literal, so no IEEE rounding distinction is observed).
Python dicts are insertion-ordered association lists where assigning to an
existing key replaces the value in place.
-/

/-- The Python values produced by the parsers: `None`, `bool`, `int`, `float`
(an exact rational), `str`, `list` and `dict`. -/
inductive PyValue where
  | none : PyValue
  | bool : Bool → PyValue
  | int : Int → PyValue
  | float : ℚ → PyValue
  | str : String → PyValue
  | list : List PyValue → PyValue
  | dict : List (String × PyValue) → PyValue

/-- Python `str.strip` whitespace test, on the ASCII whitespace characters. -/
def isPyWs (c : Char) : Bool :=
  c = ' ' || c = '\t' || c = '\n' || c = '\x0d' || c = '\x0b' || c = '\x0c'

/-- Python `str.lstrip()`. -/
def pyLStrip (cs : List Char) : List Char := cs.dropWhile isPyWs

/-- Python `str.rstrip()`. -/
def pyRStrip (cs : List Char) : List Char := (cs.reverse.dropWhile isPyWs).reverse

/-- Python `str.strip()`. -/
def pyStrip (cs : List Char) : List Char := pyLStrip (pyRStrip cs)

/-- Value of a string of decimal digits. -/
def digitsToNat (cs : List Char) : Nat := cs.foldl (fun a c => a * 10 + (c.toNat - 48)) 0

theorem natDivGcd_ne_zero {m d : Nat} (hd : d ≠ 0) : d / m.gcd d ≠ 0 :=
  (Nat.div_pos (Nat.le_of_dvd (Nat.pos_of_ne_zero hd) (Nat.gcd_dvd_right _ _))
    (Nat.gcd_pos_of_pos_right _ (Nat.pos_of_ne_zero hd))).ne'

theorem natDivGcd_coprime {m d : Nat} (hd : d ≠ 0) :
    Nat.Coprime (m / m.gcd d) (d / m.gcd d) :=
  Nat.coprime_div_gcd_div_gcd (Nat.gcd_pos_of_pos_right _ (Nat.pos_of_ne_zero hd))

/-- The rational `n / d` in lowest terms, assembled through the canonical
`Rat` constructor so that it reduces definitionally on literal inputs
(the built-in `Rat` arithmetic does not). -/
def mkQ : Int → (d : Nat) → d ≠ 0 → ℚ
  | Int.ofNat m, d, hd =>
    Rat.mk' (Int.ofNat (m / m.gcd d)) (d / m.gcd d) (natDivGcd_ne_zero hd)
      (by simpa using natDivGcd_coprime (m := m) hd)
  | Int.negSucc k, d, hd =>
    Rat.mk' (-Int.ofNat ((k + 1) / (k + 1).gcd d)) (d / (k + 1).gcd d)
      (natDivGcd_ne_zero hd)
      (by simpa using natDivGcd_coprime (m := k + 1) hd)

theorem mkQ_eq (n : Int) (d : Nat) (hd : d ≠ 0) : mkQ n d hd = (n : ℚ) / (d : ℚ) := by
  have hdp : 0 < d := Nat.pos_of_ne_zero hd
  cases n with
  | ofNat m =>
    have hg : 0 < m.gcd d := Nat.gcd_pos_of_pos_right _ hdp
    have hgz : ((m.gcd d : Int)) ≠ 0 := by exact_mod_cast hg.ne'
    have hm : m / m.gcd d * m.gcd d = m := Nat.div_mul_cancel (Nat.gcd_dvd_left _ _)
    have hdd : d / m.gcd d * m.gcd d = d := Nat.div_mul_cancel (Nat.gcd_dvd_right _ _)
    show Rat.mk' _ _ _ _ = _
    have hcast : ((d : Nat) : ℚ) = (((d : Nat) : Int) : ℚ) := by norm_cast
    rw [Rat.mk'_eq_divInt, hcast, ← Rat.divInt_eq_div]
    calc Rat.divInt (Int.ofNat (m / m.gcd d)) ((d / m.gcd d : Nat) : Int)
        = Rat.divInt (Int.ofNat (m / m.gcd d) * (m.gcd d : Int))
            (((d / m.gcd d : Nat) : Int) * (m.gcd d : Int)) :=
          (Rat.divInt_mul_right hgz).symm
      _ = Rat.divInt (Int.ofNat m) ((d : Nat) : Int) := by
          rw [Int.ofNat_eq_natCast, ← Int.natCast_mul, ← Int.natCast_mul, hm, hdd]
          norm_cast
  | negSucc k =>
    have hg : 0 < (k + 1).gcd d := Nat.gcd_pos_of_pos_right _ hdp
    have hgz : (((k + 1).gcd d : Int)) ≠ 0 := by exact_mod_cast hg.ne'
    have hm : (k + 1) / (k + 1).gcd d * (k + 1).gcd d = k + 1 :=
      Nat.div_mul_cancel (Nat.gcd_dvd_left _ _)
    have hdd : d / (k + 1).gcd d * (k + 1).gcd d = d :=
      Nat.div_mul_cancel (Nat.gcd_dvd_right _ _)
    show Rat.mk' _ _ _ _ = _
    have hcast : ((d : Nat) : ℚ) = (((d : Nat) : Int) : ℚ) := by norm_cast
    rw [Rat.mk'_eq_divInt, hcast, ← Rat.divInt_eq_div]
    calc Rat.divInt (-Int.ofNat ((k + 1) / (k + 1).gcd d)) ((d / (k + 1).gcd d : Nat) : Int)
        = Rat.divInt (-Int.ofNat ((k + 1) / (k + 1).gcd d) * ((k + 1).gcd d : Int))
            (((d / (k + 1).gcd d : Nat) : Int) * ((k + 1).gcd d : Int)) :=
          (Rat.divInt_mul_right hgz).symm
      _ = Rat.divInt (Int.negSucc k) ((d : Nat) : Int) := by
          rw [Int.neg_mul, Int.ofNat_eq_natCast, ← Int.natCast_mul, ← Int.natCast_mul,
            hm, hdd, Int.negSucc_eq]
          norm_cast

theorem pow10_ne_zero (k : Nat) : (10 : Nat) ^ k ≠ 0 :=
  (Nat.pow_pos (by norm_num)).ne'

/-- The exact rational value of a decimal literal with sign `neg`, integer
digits `ip`, fraction digits `fp` and decimal exponent `ex` (models what
Python's `float` returns on such a literal; IEEE rounding and overflow to
infinity are outside the model, every literal compared by the claims is
observed at this exact value). -/
def decToQ (neg : Bool) (ip fp : List Char) (ex : Int) : ℚ :=
  let m : Nat := digitsToNat ip * 10 ^ fp.length + digitsToNat fp
  let n : Int := if neg then -(m : Int) else (m : Int)
  match ex - (fp.length : Int) with
  | Int.ofNat k => mkQ (n * (10 : Int) ^ k) 1 one_ne_zero
  | Int.negSucc k => mkQ n ((10 : Nat) ^ (k + 1)) (pow10_ne_zero (k + 1))

/-- The whitespace class skipped inside JSON structures by Python's `json`
scanner (`[ \t\n\r]`). -/
def jsonWs (c : Char) : Bool := c = ' ' || c = '\t' || c = '\n' || c = '\x0d'

def dropJsonWs (cs : List Char) : List Char := cs.dropWhile jsonWs

def hexVal (c : Char) : Option Nat :=
  if c.isDigit then some (c.toNat - 48)
  else if 'a' ≤ c ∧ c ≤ 'f' then some (c.toNat - 87)
  else if 'A' ≤ c ∧ c ≤ 'F' then some (c.toNat - 55)
  else Option.none

/-- Scan the body of a JSON string literal, the opening quote already
consumed, per Python's strict `json` scanner: `"` closes the string, `\`
introduces an escape, unescaped control characters below U+0020 are rejected.
Surrogate-pair combination is outside the modelled fragment. -/
def scanJsonString : List Char → List Char → Option (String × List Char)
  | acc, '"' :: rest => some (⟨acc.reverse⟩, rest)
  | acc, '\\' :: '"' :: rest => scanJsonString ('"' :: acc) rest
  | acc, '\\' :: '\\' :: rest => scanJsonString ('\\' :: acc) rest
  | acc, '\\' :: '/' :: rest => scanJsonString ('/' :: acc) rest
  | acc, '\\' :: 'b' :: rest => scanJsonString ('\x08' :: acc) rest
  | acc, '\\' :: 'f' :: rest => scanJsonString ('\x0c' :: acc) rest
  | acc, '\\' :: 'n' :: rest => scanJsonString ('\n' :: acc) rest
  | acc, '\\' :: 'r' :: rest => scanJsonString ('\x0d' :: acc) rest
  | acc, '\\' :: 't' :: rest => scanJsonString ('\t' :: acc) rest
  | acc, '\\' :: 'u' :: a :: b :: c :: d :: rest =>
    match hexVal a, hexVal b, hexVal c, hexVal d with
    | some x, some y, some z, some w =>
      scanJsonString (Char.ofNat (((x * 16 + y) * 16 + z) * 16 + w) :: acc) rest
    | _, _, _, _ => Option.none
  | _, '\\' :: _ => Option.none
  | acc, ch :: rest => if ch.toNat < 32 then Option.none else scanJsonString (ch :: acc) rest
  | _, [] => Option.none

/-- The integer part of a JSON number per Python json's regex
`(-?(?:0|[1-9]\d*))`: a lone `0`, or a nonzero digit followed by digits. -/
def jsonIntPart : List Char → Option (List Char × List Char)
  | '0' :: r => some (['0'], r)
  | c :: r =>
    if c.isDigit then
      some (c :: r.takeWhile Char.isDigit, r.dropWhile Char.isDigit)
    else Option.none
  | [] => Option.none

/-- Continue a JSON number after its integer part: an optional fraction
`(\.\d+)?` and optional exponent `([eE][-+]?\d+)?`; when neither is present
the literal is an `int`, otherwise a `float` (Python applies `int` or `float`
accordingly). A dot or exponent marker not followed by a digit is not part of
the number and is left unconsumed, as with regex matching. -/
def jsonNumAfterInt (neg : Bool) (ipart : List Char) (cs : List Char) :
    Option (PyValue × List Char) :=
  let fr : List Char × List Char :=
    match cs with
    | '.' :: r =>
      if (r.takeWhile Char.isDigit).isEmpty then ([], cs)
      else (r.takeWhile Char.isDigit, r.dropWhile Char.isDigit)
    | _ => ([], cs)
  let ex : Option Int × List Char :=
    match fr.2 with
    | e :: r =>
      if e = 'e' || e = 'E' then
        match r with
        | '-' :: r2 =>
          if (r2.takeWhile Char.isDigit).isEmpty then (Option.none, fr.2)
          else (some (-(digitsToNat (r2.takeWhile Char.isDigit) : Int)), r2.dropWhile Char.isDigit)
        | '+' :: r2 =>
          if (r2.takeWhile Char.isDigit).isEmpty then (Option.none, fr.2)
          else (some ((digitsToNat (r2.takeWhile Char.isDigit) : Int)), r2.dropWhile Char.isDigit)
        | _ =>
          if (r.takeWhile Char.isDigit).isEmpty then (Option.none, fr.2)
          else (some ((digitsToNat (r.takeWhile Char.isDigit) : Int)), r.dropWhile Char.isDigit)
      else (Option.none, fr.2)
    | [] => (Option.none, fr.2)
  if fr.1.isEmpty ∧ ex.1 = Option.none then
    some (PyValue.int (if neg then -(digitsToNat ipart : Int) else (digitsToNat ipart : Int)), cs)
  else
    some (PyValue.float (decToQ neg ipart fr.1 (ex.1.getD 0)), ex.2)

/-- Scan a JSON number per Python json's `NUMBER_RE`. -/
def scanJsonNumber (cs : List Char) : Option (PyValue × List Char) :=
  match cs with
  | '-' :: r =>
    match jsonIntPart r with
    | some (ip, r1) => jsonNumAfterInt true ip r1
    | Option.none => Option.none
  | _ =>
    match jsonIntPart cs with
    | some (ip, r1) => jsonNumAfterInt false ip r1
    | Option.none => Option.none

/-- Python dict assignment `d[k] = v`: replace the value of an existing key in
place, otherwise append. -/
def insertKV (d : List (String × PyValue)) (k : String) (v : PyValue) :
    List (String × PyValue) :=
  match d with
  | [] => [(k, v)]
  | (k2, v2) :: rest => if k2 = k then (k, v) :: rest else (k2, v2) :: insertKV rest k v

mutual

/-- One JSON value starting at the head of the input, per Python's `json`
scanner (`scan_once`): no leading whitespace is skipped; `NaN`/`Infinity`
constants are outside the modelled fragment.  The fuel bounds recursion; the
top-level entry supplies more fuel than any input can consume. -/
def parseJsonV : Nat → List Char → Option (PyValue × List Char)
  | 0, _ => Option.none
  | Nat.succ fuel, cs =>
    match cs with
    | '"' :: rest =>
      match scanJsonString [] rest with
      | some (s, r) => some (PyValue.str s, r)
      | Option.none => Option.none
    | '{' :: rest => parseJsonObjBody fuel (dropJsonWs rest) true []
    | '[' :: rest => parseJsonArrBody fuel (dropJsonWs rest) true []
    | 't' :: 'r' :: 'u' :: 'e' :: rest => some (PyValue.bool true, rest)
    | 'f' :: 'a' :: 'l' :: 's' :: 'e' :: rest => some (PyValue.bool false, rest)
    | 'n' :: 'u' :: 'l' :: 'l' :: rest => some (PyValue.none, rest)
    | _ => scanJsonNumber cs

/-- Members of a JSON object after `{`, whitespace already skipped: `}` closes
only at the very first position (no trailing comma), keys are strings, `:`
separates, `,` continues. -/
def parseJsonObjBody : Nat → List Char → Bool → List (String × PyValue) →
    Option (PyValue × List Char)
  | 0, _, _, _ => Option.none
  | Nat.succ fuel, cs, first, acc =>
    match cs with
    | '}' :: rest => if first then some (PyValue.dict acc, rest) else Option.none
    | '"' :: rest =>
      match scanJsonString [] rest with
      | Option.none => Option.none
      | some (k, r1) =>
        match dropJsonWs r1 with
        | ':' :: r2 =>
          match parseJsonV fuel (dropJsonWs r2) with
          | Option.none => Option.none
          | some (v, r3) =>
            match dropJsonWs r3 with
            | ',' :: r4 => parseJsonObjBody fuel (dropJsonWs r4) false (insertKV acc k v)
            | '}' :: r4 => some (PyValue.dict (insertKV acc k v), r4)
            | _ => Option.none
        | _ => Option.none
    | _ => Option.none

/-- Elements of a JSON array after `[`, whitespace already skipped. -/
def parseJsonArrBody : Nat → List Char → Bool → List PyValue →
    Option (PyValue × List Char)
  | 0, _, _, _ => Option.none
  | Nat.succ fuel, cs, first, acc =>
    match cs with
    | ']' :: rest => if first then some (PyValue.list acc.reverse, rest) else Option.none
    | _ =>
      match parseJsonV fuel cs with
      | Option.none => Option.none
      | some (v, r1) =>
        match dropJsonWs r1 with
        | ',' :: r2 => parseJsonArrBody fuel (dropJsonWs r2) false (v :: acc)
        | ']' :: r2 => some (PyValue.list (v :: acc).reverse, r2)
        | _ => Option.none

end

/-- Models `json.JSONDecoder().raw_decode(s)`: parse one JSON value starting
exactly at index 0 — leading whitespace is NOT skipped — returning the value
and the unconsumed remainder (the source's `index` is the count of consumed
characters).  Every `json.JSONDecodeError` is modelled as `none`: the scanner
raises the same exception for an incomplete prefix and for malformed input. -/
def rawDecode (cs : List Char) : Option (PyValue × List Char) :=
  parseJsonV (2 * cs.length + 4) cs

/-- Models `json.loads`: skip leading whitespace, parse one value, and allow
only trailing whitespace. -/
def jsonLoads (cs : List Char) : Option PyValue :=
  match rawDecode (dropJsonWs cs) with
  | some (v, rest) => if (dropJsonWs rest).isEmpty then some v else Option.none
  | Option.none => Option.none

/-- The two error-callback categories of `DCSDataProcessor`: a decode error
(both text decodings fail) and a parse error (a non-`JSONDecodeError`
exception escapes `raw_decode`). -/
inductive DecErr where
  | decodeError : DecErr
  | parseError : DecErr
deriving DecidableEq

/-- The observable state of a `DCSDataProcessor`: `current_buffer`, the
sequence of parsed JSON envelopes handed to `api_data_callback` so far, and
the errors handed to `error_callback` so far. -/
structure DecState where
  current_buffer : List Char
  out : List PyValue
  errors : List DecErr

/-- Models the while-loop of `DCSDataProcessor._try_parse_json`: while the
buffer is non-empty, `raw_decode` the front; on success emit the object and
left-strip the remainder; on `json.JSONDecodeError` stop and keep the buffer.
The `except Exception` branch (report a parse error, clear the buffer) is
unreachable for string input under the modelled total scanner, because
`raw_decode` signals every parse failure as `json.JSONDecodeError`.  The fuel
bounds the loop: each successful parse consumes at least one character, so
`buffer.length + 1` iterations are never exhausted. -/
def tryParseJsonLoop : Nat → DecState → DecState
  | 0, st => st
  | Nat.succ fuel, st =>
    match st.current_buffer with
    | [] => st
    | _ :: _ =>
      match rawDecode st.current_buffer with
      | some (v, rest) => tryParseJsonLoop fuel ⟨pyLStrip rest, st.out ++ [v], st.errors⟩
      | Option.none => st

/-- Models `DCSDataProcessor._try_parse_json`. -/
def try_parse_json (st : DecState) : DecState :=
  tryParseJsonLoop (st.current_buffer.length + 1) st

/-- A byte of network input. -/
abbrev NetByte := Fin 256

/-- A UTF-8 continuation byte. -/
def contByte (b : NetByte) : Bool := 128 ≤ b.val && b.val < 192

/-- Strict UTF-8 decoding as performed by Python's `bytes.decode("utf-8")`:
overlong encodings, surrogates and code points above U+10FFFF are rejected. -/
def utf8Decode : List NetByte → Option (List Char)
  | [] => some []
  | b :: rest =>
    if b.val < 128 then
      match utf8Decode rest with
      | some cs => some (Char.ofNat b.val :: cs)
      | Option.none => Option.none
    else if b.val < 194 then Option.none
    else if b.val < 224 then
      match rest with
      | b2 :: rest2 =>
        if contByte b2 then
          match utf8Decode rest2 with
          | some cs => some (Char.ofNat ((b.val - 192) * 64 + (b2.val - 128)) :: cs)
          | Option.none => Option.none
        else Option.none
      | [] => Option.none
    else if b.val < 240 then
      match rest with
      | b2 :: b3 :: rest3 =>
        if (if b.val = 224 then 160 ≤ b2.val && b2.val < 192
            else if b.val = 237 then 128 ≤ b2.val && b2.val < 160
            else contByte b2) && contByte b3 then
          match utf8Decode rest3 with
          | some cs =>
            some (Char.ofNat (((b.val - 224) * 64 + (b2.val - 128)) * 64 + (b3.val - 128)) :: cs)
          | Option.none => Option.none
        else Option.none
      | _ => Option.none
    else if b.val < 245 then
      match rest with
      | b2 :: b3 :: b4 :: rest4 =>
        if (if b.val = 240 then 144 ≤ b2.val && b2.val < 192
            else if b.val = 244 then 128 ≤ b2.val && b2.val < 144
            else contByte b2) && contByte b3 && contByte b4 then
          match utf8Decode rest4 with
          | some cs =>
            some (Char.ofNat ((((b.val - 240) * 64 + (b2.val - 128)) * 64 + (b3.val - 128)) * 64
              + (b4.val - 128)) :: cs)
          | Option.none => Option.none
        else Option.none
      | _ => Option.none
    else Option.none

/-- Python `bytes.decode("latin-1")`: total, every byte value is a defined
code point, so this decoding never raises. -/
def latin1Decode (bs : List NetByte) : List Char := bs.map (fun b => Char.ofNat b.val)

/-- The decode step of `handle_raw_data`: try UTF-8 first, fall back to
latin-1 on `UnicodeDecodeError`. -/
def decodeChunk (bs : List NetByte) : Option (List Char) :=
  match utf8Decode bs with
  | some s => some s
  | Option.none => some (latin1Decode bs)

/-- Models `DCSDataProcessor.handle_raw_data`: decode the chunk (reporting a
decode error if that fails), append it to the buffer, and run the parse
loop. -/
def handle_raw_data (st : DecState) (data : List NetByte) : DecState :=
  match decodeChunk data with
  | Option.none => ⟨st.current_buffer, st.out, st.errors ++ [DecErr.decodeError]⟩
  | some s => try_parse_json ⟨st.current_buffer ++ s, st.out, st.errors⟩

/-- Feed a sequence of chunks to one `handle_raw_data` call each. -/
def handleChunks (st : DecState) (chunks : List (List NetByte)) : DecState :=
  chunks.foldl handle_raw_data st

/-- The state of a freshly constructed `DCSDataProcessor`. -/
def initDecState : DecState := ⟨[], [], []⟩

/-- The bytes of an ASCII string. -/
def asciiBytes (s : String) : List NetByte :=
  s.data.map (fun c => ⟨c.toNat % 256, Nat.mod_lt _ (by omega)⟩)

/-- The same string split into one chunk per byte. -/
def byteByByte (s : String) : List (List NetByte) :=
  s.data.map (fun c => [⟨c.toNat % 256, Nat.mod_lt _ (by omega)⟩])

/-- The specification's chunking-invariance example stream. -/
def specStream : String := "\x7b\"a\":1\x7d\n\x7b\"b\":2\x7d\n"

/-- Models `DCSDataParser._calculate_indent` with the default tab width 4:
collect the leading run of spaces/tabs, replace each tab by four spaces, the
indent level is the normalized width divided by 2, and the returned line has
its indentation replaced by the normalized spaces. -/
def calculate_indent (line : List Char) : Nat × List Char :=
  let ind := line.takeWhile (fun c => c = ' ' || c = '\t')
  let content := line.drop ind.length
  let normalized := ind.foldr
    (fun c acc => if c = '\t' then ' ' :: ' ' :: ' ' :: ' ' :: acc else c :: acc) []
  (normalized.length / 2, normalized ++ content)

/-- The tail of the numeric regex of `_parse_value`: `([eE][-+]?\d+)?$`. -/
def expTail (cs : List Char) : Bool :=
  match cs with
  | [] => true
  | e :: r =>
    if e = 'e' || e = 'E' then
      let r1 := match r with
        | c :: r2 => if c = '+' || c = '-' then r2 else c :: r2
        | [] => r
      !(r1.takeWhile Char.isDigit).isEmpty && (r1.dropWhile Char.isDigit).isEmpty
    else false

/-- Models the anchored regex `^[-+]?(\d+(\.\d*)?|\.\d+)([eE][-+]?\d+)?$`
used by `_parse_value` to recognize numeric literals. -/
def numPatternMatch (cs : List Char) : Bool :=
  let cs1 := match cs with
    | c :: r => if c = '+' || c = '-' then r else c :: r
    | [] => []
  match cs1 with
  | '.' :: r =>
    !(r.takeWhile Char.isDigit).isEmpty && expTail (r.dropWhile Char.isDigit)
  | _ =>
    if (cs1.takeWhile Char.isDigit).isEmpty then false
    else
      match cs1.dropWhile Char.isDigit with
      | '.' :: r2 => expTail (r2.dropWhile Char.isDigit)
      | r2 => expTail r2

/-- Models `int(value_str)` on strings matched by the numeric regex: it
succeeds exactly on an optional sign followed by digits alone. -/
def pyIntParse (cs : List Char) : Option Int :=
  let sr : Bool × List Char := match cs with
    | '-' :: r => (true, r)
    | '+' :: r => (false, r)
    | _ => (false, cs)
  if !sr.2.isEmpty && sr.2.all Char.isDigit then
    some (if sr.1 then -(digitsToNat sr.2 : Int) else (digitsToNat sr.2 : Int))
  else Option.none

/-- The exact value of a regex-matched numeric literal, as computed by
`float(value_str)` (see `decToQ`). -/
def numLiteralToQ (cs : List Char) : ℚ :=
  let sr : Bool × List Char := match cs with
    | '-' :: r => (true, r)
    | '+' :: r => (false, r)
    | _ => (false, cs)
  let ip := sr.2.takeWhile Char.isDigit
  let cs2 := sr.2.dropWhile Char.isDigit
  let fr : List Char × List Char := match cs2 with
    | '.' :: r => (r.takeWhile Char.isDigit, r.dropWhile Char.isDigit)
    | _ => ([], cs2)
  let ex : Int := match fr.2 with
    | e :: r =>
      if e = 'e' || e = 'E' then
        match r with
        | '-' :: r2 => -(digitsToNat (r2.takeWhile Char.isDigit) : Int)
        | '+' :: r2 => (digitsToNat (r2.takeWhile Char.isDigit) : Int)
        | _ => (digitsToNat (r.takeWhile Char.isDigit) : Int)
      else 0
    | [] => 0
  decToQ sr.1 ip fr.1 ex

/-- Models `DCSDataParser._parse_value`.  The line-number argument is dropped
(it only feeds log messages) and `error_handler` reporting is a no-op: the
fallthrough result is what the claims observe.  For regex-matched literals
`float()` always succeeds, so the int-failure path yields the float directly;
a `[`…`]` string whose literal parse fails cannot satisfy the following
`\x7b`…`\x7d` check, so it falls through to the raw string. -/
def parse_value (cs : List Char) : PyValue :=
  if (pyStrip cs).isEmpty then PyValue.none
  else
    let lower := cs.map Char.toLower
    if lower = "true".data then PyValue.bool true
    else if lower = "false".data then PyValue.bool false
    else if lower = "none".data then PyValue.none
    else if numPatternMatch cs then
      match pyIntParse cs with
      | some n => PyValue.int n
      | Option.none => PyValue.float (numLiteralToQ cs)
    else if cs.head? = some '[' ∧ cs.getLast? = some ']' then
      match jsonLoads cs with
      | some v => v
      | Option.none => PyValue.str ⟨cs⟩
    else if cs.head? = some '{' ∧ cs.getLast? = some '}' then
      match jsonLoads cs with
      | some v => v
      | Option.none => PyValue.str ⟨cs⟩
    else PyValue.str ⟨cs⟩

/-- Insert `v` under key `k` in the dictionary found by walking `path` from
the root (each step enters a nested dict).  This models assignment through
the Python stack of dict references: the stack always aliases dicts reachable
from the root along such a path, because assignments only ever go through the
current stack top and everything above it has been popped, so a path is a
faithful representation of the aliased reference. -/
def updateAtPath (d : List (String × PyValue)) : List String → String → PyValue →
    List (String × PyValue)
  | [], k, v => insertKV d k v
  | p :: ps, k, v =>
    match d.findIdx? (fun kv => kv.1 = p) with
    | Option.none => d
    | some i =>
      match d.get? i with
      | some (k2, PyValue.dict inner) =>
        d.take i ++ (k2, PyValue.dict (updateAtPath inner ps k v)) :: d.drop (i + 1)
      | _ => d

/-- Does a stripped line have the shape `DIGITS:` (Python: ends with a colon
and `rsplit(":", 1)[0].strip().isdigit()`)? -/
def isIdLine (stripped : List Char) : Bool :=
  match stripped.getLast? with
  | some ':' =>
    !(pyStrip stripped.dropLast).isEmpty && (pyStrip stripped.dropLast).all Char.isDigit
  | _ => false

/-- The accumulator of `_parse_single_object`: the object built so far and
the stack of `(path to the aliased dict, indent level)` pairs, topmost
first (Python appends and pops at the end of its list). -/
structure ObjAcc where
  root : List (String × PyValue)
  stack : List (List String × Nat)

/-- One iteration of the line loop of `DCSDataParser._parse_single_object`:
compute the indent, strip the line, skip it when empty or (with an error
report) when it has no colon; otherwise pop the stack while the top's indent
is ≥ the line's, falling back to the root when emptied, and either open a
nested dict (empty value part) or assign the parsed value. -/
def processObjLine (acc : ObjAcc) (line : List Char) : ObjAcc :=
  let lv := calculate_indent line
  let current := pyStrip lv.2
  if current.isEmpty then acc
  else
    match current.findIdx? (fun c => c = ':') with
    | Option.none => acc
    | some colonPos =>
      let key : String := ⟨pyStrip (current.take colonPos)⟩
      let valuePart := pyLStrip (current.drop (colonPos + 1))
      let stack1 := acc.stack.dropWhile (fun e => lv.1 ≤ e.2)
      let stack2 := if stack1.isEmpty then [([], 0)] else stack1
      let path := (stack2.headD ([], 0)).1
      if valuePart.isEmpty then
        ⟨updateAtPath acc.root path key (PyValue.dict []),
          (path ++ [key], lv.1) :: stack2⟩
      else
        ⟨updateAtPath acc.root path key (parse_value valuePart), stack2⟩

/-- Models `DCSDataParser._parse_single_object`. -/
def parse_single_object (lines : List (List Char)) : List (String × PyValue) :=
  match lines with
  | [] => []
  | first :: _ =>
    let firstLine := pyStrip first
    let start : List (String × PyValue) × List (List Char) :=
      if isIdLine firstLine then
        ([("id", PyValue.int (digitsToNat (pyStrip firstLine.dropLast) : Int))], lines.drop 1)
      else ([], lines)
    (start.2.foldl processObjLine ⟨start.1, [([], 0)]⟩).root

/-- Split on `'\n'`, keeping empty pieces (Python `str.split("\n")`). -/
def splitOnNl : List Char → List (List Char)
  | [] => [[]]
  | c :: rest =>
    let r := splitOnNl rest
    if c = '\n' then [] :: r
    else match r with
      | h :: t => (c :: h) :: t
      | [] => [[c]]

/-- The grouping loop of `DCSDataParser.parse_data`: a line of shape
`DIGITS:` flushes the lines collected so far (if any) as one object and
starts the next one. -/
def groupObjects (lines : List (List Char)) : List (List (List Char)) :=
  let fin := lines.foldl
    (fun acc line =>
      let flushed : List (List (List Char)) × List (List Char) :=
        if isIdLine (pyStrip line) && !acc.2.isEmpty then (acc.1 ++ [acc.2], [])
        else acc
      (flushed.1, flushed.2 ++ [line]))
    (([], []) : List (List (List Char)) × List (List Char))
  if fin.2.isEmpty then fin.1 else fin.1 ++ [fin.2]

/-- Models `DCSDataParser.parse_data`: split into lines, drop blank lines,
right-strip the rest, group them into per-object blocks at `DIGITS:` lines
and parse each block. -/
def parse_data (raw : List Char) : List (List (String × PyValue)) :=
  if raw.isEmpty then []
  else
    let lines := ((splitOnNl raw).filter (fun l => !(pyStrip l).isEmpty)).map pyRStrip
    if lines.isEmpty then []
    else (groupObjects lines).map parse_single_object

/-- The object text of the specification's indentation-tree scenario. -/
def c5Input : String := "16785664:\n\tPitch: 0.10096984356642\n\tType:\n\t\tlevel3: 5\n\tCountry: 2\n"

/-- One parameter record of a `DCSAPI` (`id`, `name`, `value`, `type`; the
stored value is always a string, Python applies `str(...)` on assignment). -/
structure DCSParam where
  pid : Int
  name : String
  value : String
  ptype : Nat
deriving DecidableEq

/-- The fields of a `DCSAPI` object (`dcs_api_parser.py`). -/
structure DCSAPI where
  id : Int
  returns_data : Bool
  api_syntax : String
  parameter_count : Int
  parameters : List DCSParam
  error_thrown : Bool
  error_message : String
  result : String
  result_type : String
deriving DecidableEq

/-- Models `DCSAPI.set_parameter_value`: overwrite the value of the first
parameter with a matching name; a missing name raises `ValueError`,
modelled as `none`. -/
def set_parameter_value : List DCSParam → String → String → Option (List DCSParam)
  | [], _, _ => Option.none
  | p :: rest, n, v =>
    if p.name = n then some (⟨p.pid, p.name, v, p.ptype⟩ :: rest)
    else
      match set_parameter_value rest n v with
      | some rest2 => some (p :: rest2)
      | Option.none => Option.none

/-- The parameter-override loop at the top of
`DCSCommandProcessor.queue_command`: apply the overrides in order, stopping
with a failure at the first name that is not among the parameters. -/
def applyParams : List DCSParam → List (String × String) → Option (List DCSParam)
  | ps, [] => some ps
  | ps, o :: rest =>
    match set_parameter_value ps o.1 o.2 with
    | Option.none => Option.none
    | some ps2 => applyParams ps2 rest

/-- Replace the parameter list of an api object. -/
def withParams (api : DCSAPI) (ps : List DCSParam) : DCSAPI :=
  ⟨api.id, api.returns_data, DCSAPI.api_syntax api, api.parameter_count, ps,
    api.error_thrown, api.error_message, api.result, api.result_type⟩

/-- The mutable state of a `DCSCommandProcessor`: the FIFO `command_queue`
and the `response_received` flag (`false` means one command is in flight). -/
structure CmdState where
  command_queue : List DCSAPI
  response_received : Bool
deriving DecidableEq

/-- The observable events of the command pipeline: a call of
`send_data_callback` with the serialized command and its success result, a
call of `command_completed_callback`, and a call of the response observer
`trigger_api_data_received`. -/
inductive CmdEv where
  | send : DCSAPI → Bool → CmdEv
  | completed : CmdEv
  | received : DCSAPI → CmdEv
deriving DecidableEq

/-- Models `DCSCommandProcessor.send_next_command` with the send callback
wired (as in `DCSClient`); `sendOk` gives the callback's result for each
command.  Serialization to JSON bytes is modelled abstractly: the send event
carries the command object itself.  On a failed send the command has already
been popped and is dropped. -/
def send_next_command (sendOk : DCSAPI → Bool) (s : CmdState) : Bool × CmdState × List CmdEv :=
  match s.command_queue with
  | [] => (false, s, [])
  | api :: rest =>
    if s.response_received then
      if sendOk api then (true, ⟨rest, false⟩, [CmdEv.send api true])
      else (false, ⟨rest, true⟩, [CmdEv.send api false])
    else (false, s, [])

/-- Models `DCSCommandProcessor.queue_command`: apply the overrides (failing
without touching the queue when a name is missing), append the command, and
send immediately when no response is pending. -/
def queue_command (sendOk : DCSAPI → Bool) (s : CmdState) (api : DCSAPI)
    (params : List (String × String)) : Bool × CmdState × List CmdEv :=
  match applyParams api.parameters params with
  | Option.none => (false, s, [])
  | some ps2 =>
    let s1 : CmdState := ⟨s.command_queue ++ [withParams api ps2], s.response_received⟩
    if s.response_received then
      (true, (send_next_command sendOk s1).2.1, (send_next_command sendOk s1).2.2)
    else (true, s1, [])

/-- Models `DCSCommandProcessor.mark_response_received`: set the flag, then
send the next command if the queue is non-empty, otherwise signal
completion. -/
def mark_response_received (sendOk : DCSAPI → Bool) (s : CmdState) : CmdState × List CmdEv :=
  match s.command_queue with
  | [] => (⟨[], true⟩, [CmdEv.completed])
  | api :: rest => (send_next_command sendOk ⟨api :: rest, true⟩).2

/-- Models `DCSClient._on_api_response`: the response observer
(`trigger_api_data_received`) fires first, then `mark_response_received`
advances the queue. -/
def onApiResponse (sendOk : DCSAPI → Bool) (s : CmdState) (api : DCSAPI) :
    CmdState × List CmdEv :=
  ((mark_response_received sendOk s).1,
    CmdEv.received api :: (mark_response_received sendOk s).2)

/-- Process a sequence of received responses through `_on_api_response`. -/
def processResponses (sendOk : DCSAPI → Bool) : CmdState → List DCSAPI → CmdState × List CmdEv
  | s, [] => (s, [])
  | s, api :: rest =>
    ((processResponses sendOk (onApiResponse sendOk s api).1 rest).1,
      (onApiResponse sendOk s api).2 ++
        (processResponses sendOk (onApiResponse sendOk s api).1 rest).2)

/-- The caller-visible operations on the command processor. -/
inductive CmdOp where
  | queue : DCSAPI → List (String × String) → CmdOp
  | sendNext : CmdOp
  | markResponse : CmdOp
deriving DecidableEq

/-- Run one operation, returning the new state and the emitted events. -/
def runOp (sendOk : DCSAPI → Bool) (s : CmdState) : CmdOp → CmdState × List CmdEv
  | CmdOp.queue api ps => ((queue_command sendOk s api ps).2.1, (queue_command sendOk s api ps).2.2)
  | CmdOp.sendNext => ((send_next_command sendOk s).2.1, (send_next_command sendOk s).2.2)
  | CmdOp.markResponse => mark_response_received sendOk s

/-- Run a sequence of operations, concatenating the emitted events. -/
def runOps (sendOk : DCSAPI → Bool) : CmdState → List CmdOp → CmdState × List CmdEv
  | s, [] => (s, [])
  | s, op :: rest =>
    ((runOps sendOk (runOp sendOk s op).1 rest).1,
      (runOp sendOk s op).2 ++ (runOps sendOk (runOp sendOk s op).1 rest).2)

def isSendEv : CmdEv → Bool
  | CmdEv.send _ _ => true
  | _ => false

def isSendOkEv : CmdEv → Bool
  | CmdEv.send _ true => true
  | _ => false

def isReceivedEv : CmdEv → Bool
  | CmdEv.received _ => true
  | _ => false

/-- The number of `send_data_callback` invocations recorded in a trace. -/
def numSends (evs : List CmdEv) : Nat := (evs.filter isSendEv).length

/-- A set entry insertion (`set.add`) for the pending-query table. -/
def insertPending (k : Nat) (pending : List Nat) : List Nat :=
  if k ∈ pending then pending else pending ++ [k]

/-- The bounded busy-wait loop of `_send_command_and_wait`: poll the
condition a bounded number of times. -/
def waitPolls (polls : Nat) (conditionHolds : Nat → Bool) : Bool :=
  (List.range polls).any conditionHolds

/-- Models `DCSObjectManager._send_command_and_wait` for `command_id = 10`
with `params = dict(object_id = k)`, in a run where no matching response ever
arrives.  Faithful to the source: the key is added to `_pending_queries` at
send time; the wait condition is `k not in _pending_queries`; the only code
that removes the key is `_handle_single_data` on a matching response, so with
no response the condition polls false throughout the window; on timeout the
function reports an error through `_handle_error` and returns `False` — it
does not touch `_pending_queries` on that path. -/
def send_command_and_wait_no_response (pending : List Nat) (k : Nat) (polls : Nat) :
    Bool × List Nat × List String :=
  let pending1 := insertPending k pending
  if waitPolls polls (fun _ => !(pending1.contains k)) then (true, pending1, [])
  else (false, pending1, ["command 10 response timeout"])

/-- A concrete command object for witnesses. -/
def sampleApi : DCSAPI :=
  ⟨10, true, "LoGetObjectById", 1, [⟨1, "object_id", "", 0⟩], false, "", "", "nil"⟩

/-- Claim C1 (refuting evaluation): the Frame Decoder is NOT chunking
invariant.  Feeding the specification's example stream in one call yields the
two envelope objects, but feeding it byte-by-byte yields only the first: the
first frame's trailing newline becomes the head of the empty buffer,
`raw_decode` rejects leading whitespace, and the buffer is only left-stripped
after a successful parse, so the decoder wedges with the second frame stuck
behind the newline. -/
theorem handle_raw_data_chunking_dependent :
    (handleChunks initDecState [asciiBytes specStream]).out =
      [PyValue.dict [("a", PyValue.int 1)], PyValue.dict [("b", PyValue.int 2)]] ∧
    (handleChunks initDecState (byteByByte specStream)).out =
      [PyValue.dict [("a", PyValue.int 1)]] ∧
    (handleChunks initDecState (byteByByte specStream)).current_buffer =
      "\n\x7b\"b\":2\x7d\n".data :=
  ⟨rfl, rfl, rfl⟩

/-- Claim C2 (refuting evaluation): on the malformed buffer `xyz` — which is
not a prefix of any JSON value — the decoder reports NO error and PRESERVES
the buffer, because `raw_decode` raises `json.JSONDecodeError` for malformed
input just as for incomplete input and the source treats that exception as
"incomplete, wait for more data"; the discard-and-report branch
(`except Exception`) is unreachable for parse failures. -/
theorem malformed_buffer_kept_no_error :
    handle_raw_data initDecState (asciiBytes "xyz") =
      ⟨"xyz".data, [], []⟩ :=
  rfl

/-- Claim C4 (refuting evaluation): a single-object query for object id 42
whose response never arrives times out with a `False` result, but the pending
entry for 42 is NOT removed: the timeout path of `_send_command_and_wait`
only reports an error, and the only removal site is `_handle_single_data` on
a matching response. -/
theorem query_timeout_leaves_pending_entry :
    (send_command_and_wait_no_response [] 42 10).1 = false ∧
    42 ∈ (send_command_and_wait_no_response [] 42 10).2.1 := by
  refine ⟨rfl, ?_⟩
  decide

/-- Claim C5: parsing the scenario object text produces exactly one object
with integer id 16785664, float field `Pitch`, a nested object `Type` holding
the more-indented `level3` line, and integer field `Country`. -/
theorem parse_data_scenario_nested_object :
    parse_data c5Input.data =
      [[("id", PyValue.int 16785664),
        ("Pitch", PyValue.float (0.10096984356642 : ℚ)),
        ("Type", PyValue.dict [("level3", PyValue.int 5)]),
        ("Country", PyValue.int 2)]] := by
  have h : (0.10096984356642 : ℚ) = mkQ 10096984356642 (10 ^ 14) (pow10_ne_zero 14) := by
    rw [mkQ_eq]; norm_num
  rw [h]; rfl

/-- Claim C7: the Value Type Inferencer accepts scientific notation —
`"3.2e+5"` becomes the float 320000.0, not a string — and `"[150.5, 0.0,
-2.3]"` becomes a three-element float list in order. -/
theorem parse_value_scientific_and_array :
    parse_value "3.2e+5".data = PyValue.float (320000 : ℚ) ∧
    parse_value "[150.5, 0.0, -2.3]".data =
      PyValue.list [PyValue.float (150.5 : ℚ), PyValue.float (0 : ℚ),
        PyValue.float (-2.3 : ℚ)] := by
  have h1 : (320000 : ℚ) = mkQ 320000 1 one_ne_zero := by rw [mkQ_eq]; norm_num
  have h2 : (150.5 : ℚ) = mkQ 1505 10 (by norm_num) := by rw [mkQ_eq]; norm_num
  have h3 : (0 : ℚ) = mkQ 0 10 (by norm_num) := by rw [mkQ_eq]; norm_num
  have h4 : (-2.3 : ℚ) = mkQ (-23) 10 (by norm_num) := by rw [mkQ_eq]; norm_num
  refine ⟨?_, ?_⟩
  · rw [h1]; rfl
  · rw [h2, h3, h4]; rfl

/-- Claim C6 (counterexample): the trimmed value string `"none"` matches none
of the claim's listed categories (not empty, not a boolean literal, not
numeric, not bracketed), so the claim requires it to come back as the string
`"none"` unchanged — but `_parse_value` maps case-insensitive `none` to
`None`. -/
theorem parse_value_none_counterexample :
    parse_value "none".data = PyValue.none ∧
    parse_value "none".data ≠ PyValue.str "none" := by
  refine ⟨rfl, ?_⟩
  intro h
  rw [show parse_value "none".data = PyValue.none from rfl] at h
  exact PyValue.noConfusion h

/-- Claim C6 (amended): the resolution order of `_parse_value`, first match
wins, on a non-blank value string: case-insensitive `true`/`false` give a
boolean; case-insensitive `none` also gives null (the amendment); a string
matching the numeric regex gives the integer `int()` returns when it
succeeds, else the float value; a `[`…`]` string gives the array literal
parse with raw-string fallback; then the same for `\x7b`…`\x7d`; and every
remaining string is returned unchanged.  A blank string gives null. -/
theorem parse_value_resolution_order (cs : List Char) :
    ((pyStrip cs).isEmpty = true → parse_value cs = PyValue.none) ∧
    ((pyStrip cs).isEmpty = false →
      cs.map Char.toLower = "true".data → parse_value cs = PyValue.bool true) ∧
    ((pyStrip cs).isEmpty = false →
      cs.map Char.toLower = "false".data → parse_value cs = PyValue.bool false) ∧
    ((pyStrip cs).isEmpty = false →
      cs.map Char.toLower = "none".data → parse_value cs = PyValue.none) ∧
    ((pyStrip cs).isEmpty = false →
      cs.map Char.toLower ≠ "true".data → cs.map Char.toLower ≠ "false".data →
      cs.map Char.toLower ≠ "none".data → numPatternMatch cs = true →
      ((∀ n, pyIntParse cs = some n → parse_value cs = PyValue.int n) ∧
        (pyIntParse cs = Option.none →
          parse_value cs = PyValue.float (numLiteralToQ cs)))) ∧
    ((pyStrip cs).isEmpty = false →
      cs.map Char.toLower ≠ "true".data → cs.map Char.toLower ≠ "false".data →
      cs.map Char.toLower ≠ "none".data → numPatternMatch cs = false →
      cs.head? = some '[' ∧ cs.getLast? = some ']' →
      ((∀ v, jsonLoads cs = some v → parse_value cs = v) ∧
        (jsonLoads cs = Option.none → parse_value cs = PyValue.str ⟨cs⟩))) ∧
    ((pyStrip cs).isEmpty = false →
      cs.map Char.toLower ≠ "true".data → cs.map Char.toLower ≠ "false".data →
      cs.map Char.toLower ≠ "none".data → numPatternMatch cs = false →
      ¬(cs.head? = some '[' ∧ cs.getLast? = some ']') →
      cs.head? = some '{' ∧ cs.getLast? = some '}' →
      ((∀ v, jsonLoads cs = some v → parse_value cs = v) ∧
        (jsonLoads cs = Option.none → parse_value cs = PyValue.str ⟨cs⟩))) ∧
    ((pyStrip cs).isEmpty = false →
      cs.map Char.toLower ≠ "true".data → cs.map Char.toLower ≠ "false".data →
      cs.map Char.toLower ≠ "none".data → numPatternMatch cs = false →
      ¬(cs.head? = some '[' ∧ cs.getLast? = some ']') →
      ¬(cs.head? = some '{' ∧ cs.getLast? = some '}') →
      parse_value cs = PyValue.str ⟨cs⟩) := by
  refine ⟨?_, ?_, ?_, ?_, ?_, ?_, ?_, ?_⟩
  · intro h; simp [parse_value, h]
  · intro h0 h; simp [parse_value, h0, h]
  · intro h0 h; simp [parse_value, h0, h]
  · intro h0 h; simp [parse_value, h0, h]
  · intro h0 h1 h2 h3 hnum
    constructor
    · intro n hn; simp [parse_value, h0, h1, h2, h3, hnum, hn]
    · intro hn; simp [parse_value, h0, h1, h2, h3, hnum, hn]
  · intro h0 h1 h2 h3 hnum hbr
    constructor
    · intro v hv; simp [parse_value, h0, h1, h2, h3, hnum, hbr, hv]
    · intro hv
      have hobj : ¬(cs.head? = some '{' ∧ cs.getLast? = some '}') := by
        intro hc
        exact absurd (hbr.1.symm.trans hc.1) (by decide)
      simp [parse_value, h0, h1, h2, h3, hnum, hbr, hv, hobj]
  · intro h0 h1 h2 h3 hnum harr hbr
    constructor
    · intro v hv; simp [parse_value, h0, h1, h2, h3, hnum, harr, hbr, hv]
    · intro hv; simp [parse_value, h0, h1, h2, h3, hnum, harr, hbr, hv]
  · intro h0 h1 h2 h3 hnum harr hobj
    simp [parse_value, h0, h1, h2, h3, hnum, harr, hobj]

/-- Witness for the resolution-order theorem at concrete inputs: a numeric
string gives its integer, an unclassified string comes back unchanged. -/
theorem parse_value_resolution_order_witness :
    parse_value "42".data = PyValue.int 42 ∧
    parse_value "hello".data = PyValue.str "hello" := by
  constructor
  · exact ((parse_value_resolution_order "42".data).2.2.2.2.1 (by decide) (by decide)
      (by decide) (by decide) (by decide)).1 42 (by decide)
  · exact (parse_value_resolution_order "hello".data).2.2.2.2.2.2.2 (by decide) (by decide)
      (by decide) (by decide) (by decide) (by decide) (by decide)

theorem runOp_awaiting (sendOk : DCSAPI → Bool) (s : CmdState) (op : CmdOp)
    (hflag : s.response_received = false) (hop : op ≠ CmdOp.markResponse) :
    (runOp sendOk s op).2 = [] ∧ (runOp sendOk s op).1.response_received = false := by
  cases op with
  | queue api ps =>
    cases hap : applyParams api.parameters ps with
    | none => simp [runOp, queue_command, hap, hflag]
    | some ps2 => simp [runOp, queue_command, hap, hflag]
  | sendNext =>
    cases hq : s.command_queue with
    | nil => simp [runOp, send_next_command, hq, hflag]
    | cons a t => simp [runOp, send_next_command, hq, hflag]
  | markResponse => exact absurd rfl hop

theorem runOps_awaiting (sendOk : DCSAPI → Bool) (s : CmdState) (ops : List CmdOp)
    (hflag : s.response_received = false) (hops : ∀ op ∈ ops, op ≠ CmdOp.markResponse) :
    (runOps sendOk s ops).2 = [] := by
  induction ops generalizing s with
  | nil => rfl
  | cons op rest ih =>
    have h1 := runOp_awaiting sendOk s op hflag (hops op (by simp))
    have h2 := ih (runOp sendOk s op).1 h1.2 (fun o ho => hops o (by simp [ho]))
    simp [runOps, h1.1, h2]

/-- Claim C3: the at-most-one-in-flight discipline of the Command Queue /
Correlator.  (1) The awaiting-response state (`response_received = false`) is
left only by a `mark_response_received` call; (2) it is entered only
together with a successful send event; (3) a `mark_response_received` on a
non-empty queue whose head send succeeds produces exactly one send call, and
no further send occurs under any following operations until the next
`mark_response_received`. -/
theorem command_correlator_single_in_flight (sendOk : DCSAPI → Bool) :
    (∀ (s : CmdState) (op : CmdOp), s.response_received = false →
      (runOp sendOk s op).1.response_received = true → op = CmdOp.markResponse) ∧
    (∀ (s : CmdState) (op : CmdOp), s.response_received = true →
      (runOp sendOk s op).1.response_received = false →
      (runOp sendOk s op).2.any isSendOkEv = true) ∧
    (∀ (s : CmdState) (api : DCSAPI) (rest : List DCSAPI) (ops : List CmdOp),
      s.command_queue = api :: rest → sendOk api = true →
      (∀ op ∈ ops, op ≠ CmdOp.markResponse) →
      numSends ((mark_response_received sendOk s).2 ++
        (runOps sendOk (mark_response_received sendOk s).1 ops).2) = 1) := by
  refine ⟨?_, ?_, ?_⟩
  · intro s op hflag htrue
    by_contra hop
    have h := (runOp_awaiting sendOk s op hflag hop).2
    rw [h] at htrue
    exact Bool.false_ne_true htrue
  · intro s op h1 h2
    cases op with
    | queue api ps =>
      cases hap : applyParams api.parameters ps with
      | none =>
        rw [runOp] at h2
        simp [queue_command, hap, h1] at h2
      | some ps2 =>
        cases hq : s.command_queue ++ [withParams api ps2] with
        | nil => exact absurd hq (by simp)
        | cons c t =>
          cases hok : sendOk c with
          | true =>
            simp [runOp, queue_command, hap, h1, send_next_command, hq, hok, isSendOkEv]
          | false =>
            rw [runOp] at h2
            simp [queue_command, hap, h1, send_next_command, hq, hok] at h2
    | sendNext =>
      cases hq : s.command_queue with
      | nil =>
        rw [runOp] at h2
        simp [send_next_command, hq, h1] at h2
      | cons c t =>
        cases hok : sendOk c with
        | true => simp [runOp, send_next_command, hq, h1, hok, isSendOkEv]
        | false =>
          rw [runOp] at h2
          simp [send_next_command, hq, h1, hok] at h2
    | markResponse =>
      cases hq : s.command_queue with
      | nil =>
        rw [runOp] at h2
        simp [mark_response_received, hq] at h2
      | cons c t =>
        cases hok : sendOk c with
        | true =>
          simp [runOp, mark_response_received, hq, send_next_command, hok, isSendOkEv]
        | false =>
          rw [runOp] at h2
          simp [mark_response_received, hq, send_next_command, hok] at h2
  · intro s api rest ops hq hok hops
    have hmark : mark_response_received sendOk s = (⟨rest, false⟩, [CmdEv.send api true]) := by
      simp [mark_response_received, hq, send_next_command, hok]
    rw [hmark]
    have hrun := runOps_awaiting sendOk ⟨rest, false⟩ ops rfl hops
    simp only [hrun, List.append_nil]
    simp [numSends, isSendEv]

/-- Witness for the single-in-flight theorem at concrete states: leaving the
awaiting state happens through `markResponse` (trivially instantiated), a
concrete successful send clears the flag with a send event, and a concrete
mark on a one-command queue followed by a further `sendNext` produces
exactly one send. -/
theorem command_correlator_single_in_flight_witness :
    CmdOp.markResponse = CmdOp.markResponse ∧
    (runOp (fun _ => true) ⟨[sampleApi], true⟩ CmdOp.sendNext).2.any isSendOkEv = true ∧
    numSends ((mark_response_received (fun _ => true) ⟨[sampleApi], false⟩).2 ++
      (runOps (fun _ => true)
        (mark_response_received (fun _ => true) ⟨[sampleApi], false⟩).1
        [CmdOp.sendNext]).2) = 1 := by
  have h := command_correlator_single_in_flight (fun _ => true)
  refine ⟨?_, ?_, ?_⟩
  · exact h.1 ⟨[], false⟩ CmdOp.markResponse (by decide) (by decide)
  · exact h.2.1 ⟨[sampleApi], true⟩ CmdOp.sendNext (by decide) (by decide)
  · exact h.2.2 ⟨[sampleApi], false⟩ sampleApi [] [CmdOp.sendNext] (by decide) (by decide)
      (by decide)

theorem mark_no_received (sendOk : DCSAPI → Bool) (s : CmdState) :
    (mark_response_received sendOk s).2.filter isReceivedEv = [] := by
  cases hq : s.command_queue with
  | nil => simp [mark_response_received, hq, isReceivedEv]
  | cons a t =>
    cases hok : sendOk a <;>
      simp [mark_response_received, hq, send_next_command, hok, isReceivedEv]

/-- Claim C8: for every received response the response observer fires before
the command queue advances — the trace of `_on_api_response` starts with the
`received` event and only then contains the events of
`mark_response_received` — and hence across any sequence of responses the
observer sees them exactly in production order. -/
theorem dispatcher_response_before_advance (sendOk : DCSAPI → Bool) :
    (∀ (s : CmdState) (api : DCSAPI),
      (onApiResponse sendOk s api).2 =
        CmdEv.received api :: (mark_response_received sendOk s).2) ∧
    (∀ (s : CmdState) (apis : List DCSAPI),
      (processResponses sendOk s apis).2.filter isReceivedEv =
        apis.map CmdEv.received) := by
  refine ⟨fun s api => rfl, ?_⟩
  intro s apis
  induction apis generalizing s with
  | nil => rfl
  | cons a t ih =>
    simp only [processResponses, onApiResponse, List.filter_append, List.filter_cons]
    simp [isReceivedEv, mark_no_received, ih]

theorem set_parameter_value_names (ps : List DCSParam) (n v : String)
    (ps2 : List DCSParam) (h : set_parameter_value ps n v = some ps2) :
    ps2.map (fun p => p.name) = ps.map (fun p => p.name) := by
  induction ps generalizing ps2 with
  | nil => simp [set_parameter_value] at h
  | cons p rest ih =>
    by_cases hn : p.name = n
    · simp [set_parameter_value, hn] at h
      simp [← h, hn]
    · simp only [set_parameter_value, hn, if_false] at h
      cases hr : set_parameter_value rest n v with
      | none => rw [hr] at h; simp at h
      | some r =>
        rw [hr] at h
        simp at h
        simp [← h, ih r hr]

theorem set_parameter_value_missing (ps : List DCSParam) (n v : String)
    (h : n ∉ ps.map (fun p => p.name)) :
    set_parameter_value ps n v = Option.none := by
  induction ps with
  | nil => rfl
  | cons p rest ih =>
    simp only [List.map_cons, List.mem_cons] at h
    push_neg at h
    have hpn : ¬p.name = n := fun he => h.1 he.symm
    simp [set_parameter_value, hpn, ih h.2]

theorem applyParams_missing (ps : List DCSParam) (ovs : List (String × String))
    (h : ∃ nv ∈ ovs, nv.1 ∉ ps.map (fun p => p.name)) :
    applyParams ps ovs = Option.none := by
  induction ovs generalizing ps with
  | nil => obtain ⟨nv, hmem, _⟩ := h; simp at hmem
  | cons o rest ih =>
    obtain ⟨nv, hmem, hmiss⟩ := h
    rcases List.mem_cons.mp hmem with heq | hmem2
    · subst heq
      simp [applyParams, set_parameter_value_missing ps nv.1 nv.2 hmiss]
    · cases hr : set_parameter_value ps o.1 o.2 with
      | none => simp [applyParams, hr]
      | some ps2 =>
        have hnames := set_parameter_value_names ps o.1 o.2 ps2 hr
        have : applyParams ps2 rest = Option.none := by
          refine ih ps2 ⟨nv, hmem2, ?_⟩
          rw [hnames]
          exact hmiss
        simp [applyParams, hr, this]

/-- Claim C10: `queue_command` is atomic with respect to the queue on a
parameter error — when the overrides contain a name that is not among the
command's parameters it returns `False`, leaves the state unchanged and
sends nothing. -/
theorem queue_command_unchanged_on_bad_override (sendOk : DCSAPI → Bool)
    (s : CmdState) (api : DCSAPI) (params : List (String × String))
    (h : ∃ nv ∈ params, nv.1 ∉ api.parameters.map (fun p => p.name)) :
    queue_command sendOk s api params = (false, s, []) := by
  simp [queue_command, applyParams_missing api.parameters params h]

/-- Witness for the bad-override theorem: overriding the unknown parameter
`missing` on a command whose only parameter is `object_id` fails and leaves
an idle empty-queue state untouched. -/
theorem queue_command_unchanged_on_bad_override_witness :
    queue_command (fun _ => true) ⟨[], true⟩ sampleApi [("missing", "1")] =
      (false, ⟨[], true⟩, []) :=
  queue_command_unchanged_on_bad_override (fun _ => true) ⟨[], true⟩ sampleApi
    [("missing", "1")] (by decide)

theorem tryParseJsonLoop_errors (fuel : Nat) (st : DecState) :
    (tryParseJsonLoop fuel st).errors = st.errors := by
  induction fuel generalizing st with
  | zero => rfl
  | succ f ih =>
    cases hb : st.current_buffer with
    | nil => simp [tryParseJsonLoop, hb]
    | cons c t =>
      cases hr : rawDecode (c :: t) with
      | none => simp [tryParseJsonLoop, hb, hr]
      | some p => simp [tryParseJsonLoop, hb, hr, ih]

/-- Claim C9: the decode-error branch of `handle_raw_data` is unreachable —
the latin-1 fallback accepts every byte sequence, so decoding always
succeeds, every chunk is appended to the buffer before the parse loop runs,
and the error list never grows. -/
theorem decode_error_branch_unreachable (st : DecState) (bs : List NetByte) :
    (∃ s, decodeChunk bs = some s ∧
      handle_raw_data st bs = try_parse_json ⟨st.current_buffer ++ s, st.out, st.errors⟩) ∧
    (handle_raw_data st bs).errors = st.errors := by
  cases hu : utf8Decode bs with
  | some s =>
    have hd : decodeChunk bs = some s := by simp [decodeChunk, hu]
    refine ⟨⟨s, hd, ?_⟩, ?_⟩
    · simp [handle_raw_data, hd]
    · simp [handle_raw_data, hd, try_parse_json, tryParseJsonLoop_errors]
  | none =>
    have hd : decodeChunk bs = some (latin1Decode bs) := by simp [decodeChunk, hu]
    refine ⟨⟨latin1Decode bs, hd, ?_⟩, ?_⟩
    · simp [handle_raw_data, hd]
    · simp [handle_raw_data, hd, try_parse_json, tryParseJsonLoop_errors]
